import Mathlib

/-!
Verification development for the `unwrap` paragraph-reconstruction core
(`src/unwrap/core.py`).  The Python classes `Metric`, `Paragraph` and
`Joiner` are shallowly embedded as Lean structures and functions; the
generator `Joiner.__iter__` becomes the recursive function `joinLines`
threading the paragraph buffer and the two metric accumulators.

Numbers: the metric values are line lengths, embedded as rationals so that
`avg = sum / count` is exact.  The source computes
`dev = sqrt(sum((v - avg)^2))` and compares
`middle - first > 2 * max(first_dev, middle_dev)`; since square roots are
irrational we embed the radicand `devSq` computably and the comparison by
the equivalent squared test `0 < gap ∧ 4 * max devSq devSq < gap ^ 2`.
Lemma `two_mul_sqrt_max_lt_iff` below proves this equivalence against
`Real.sqrt`, so theorems can state the condition exactly as the source
writes it.
-/

/-- Embedding of class `Metric` (core.py lines 10-39): `count`, `sum` and
the stored list of observed values. -/
structure Metric where
  count : Nat
  sum : ℚ
  values : List ℚ
deriving DecidableEq

/-- `Metric.__init__`: count 0, sum 0, no stored values. -/
def Metric.init : Metric :=
  { count := 0, sum := 0, values := [] }

/-- `Metric.add`: `sum += value; count += 1; values.append(value)`. -/
def Metric.add (m : Metric) (value : ℚ) : Metric :=
  { count := m.count + 1, sum := m.sum + value, values := m.values ++ [value] }

/-- `Metric.avg`: `sum / count if count else 0`. -/
def Metric.avg (m : Metric) : ℚ :=
  if m.count ≠ 0 then m.sum / m.count else 0

/-- The radicand of `Metric.dev`: `sum((value - mean) ** 2 for value in values)`.
The source returns `math.sqrt` of this; the square root is taken via
`Real.sqrt` in the statements that mention `dev` itself. -/
def Metric.devSq (m : Metric) : ℚ :=
  ((m.values.map fun value => (value - m.avg) ^ 2)).sum

/-- Model of Python `str.strip()`: remove leading and trailing whitespace.
Implemented on the character list so that it evaluates by kernel reduction
(the library `String.trim` recurses on byte positions and does not). -/
def pyStrip (s : String) : String :=
  String.mk (((s.data.dropWhile Char.isWhitespace).reverse.dropWhile
    Char.isWhitespace).reverse)

/-- Model of Python `str.endswith(mark)`: the characters of `mark` are a
suffix of the characters of `s`. -/
def pyEndsWith (s mark : String) : Bool :=
  mark.data.isSuffixOf s.data

/-- Embedding of class `Paragraph` (core.py lines 42-82): accumulated text
and the `uncertain` flag. -/
structure Paragraph where
  text : String
  uncertain : Bool
deriving DecidableEq

/-- `Paragraph.__init__`: empty text, `uncertain = False`. -/
def Paragraph.new : Paragraph :=
  { text := "", uncertain := false }

/-- `Paragraph.empty`: `not self._text`, i.e. the text is the empty string. -/
def Paragraph.empty (p : Paragraph) : Prop :=
  p.text = ""

instance (p : Paragraph) : Decidable p.empty :=
  inferInstanceAs (Decidable (p.text = ""))

/-- `Paragraph.add`: separator is `" "`, or `""` when the paragraph is empty
or the current text ends with a hyphen; then `text += separator + line`. -/
def Paragraph.add (p : Paragraph) (line : String) : Paragraph :=
  let separator := if p.empty then "" else if pyEndsWith p.text "-" then "" else " "
  { p with text := p.text ++ (separator ++ line) }

/-- `Joiner.END_MARKS` (core.py lines 87-89). -/
def END_MARKS : List String :=
  [".", "?", "!"]

/-- `Joiner.POSSIBLE_END_MARKS` (core.py lines 90-94); the closing brace is
written with an escape. -/
def POSSIBLE_END_MARKS : List String :=
  ["...", ":", ".\"", ".'", "?\"", "?'", "!\"", "!'", ")", "]", "\x7d"]

/-- `Joiner._is_last(line, next_line, is_first)` (core.py lines 153-195).
The parameters `f` and `m` are `self._first` and `self._middle`.  An absent
next line is `none`; Python's `if not next_line` is true for both `None`
and the empty string.  The comparison
`middle - first > 2 * max(dev_first, dev_middle)` is embedded as the
equivalent squared test (see `two_mul_sqrt_max_lt_iff`). -/
def Joiner.is_last (f m : Metric) (line : String) (next_line : Option String)
    (is_first : Bool) : Bool × Bool :=
  match next_line with
  | none => (true, true)
  | some next =>
    if next = "" then (true, true)
    else
      let first := f.avg
      let middle := m.avg
      let last_threshold := first - (middle - first)
      if 0 < middle - first ∧ 4 * max f.devSq m.devSq < (middle - first) ^ 2 then
        let middle_threshold := (middle + first) / 2
        if middle_threshold < (next.length : ℚ) then
          (false, true)
        else if END_MARKS.any (fun mark => pyEndsWith line mark) then
          let threshold := if is_first then last_threshold else middle_threshold
          (true, decide ((line.length : ℚ) < threshold))
        else if POSSIBLE_END_MARKS.any (fun mark => pyEndsWith line mark) then
          (true, decide ((line.length : ℚ) < last_threshold))
        else
          (false, true)
      else
        if (END_MARKS ++ POSSIBLE_END_MARKS).any (fun mark => pyEndsWith line mark) then
          (true, decide ((line.length : ℚ) < last_threshold))
        else
          (false, true)

/-- The loop body of `Joiner.__iter__` (core.py lines 111-151), over the
already-stripped line list, threading the paragraph buffer and the two
metrics and collecting the yielded paragraphs.  A blank line yields the
buffer when the buffer is empty (resetting it) and then yields a fresh
empty paragraph; a non-blank line is appended to the buffer and classified
by `is_last`, either closing the buffer with the certainty flag or feeding
the line length into the first-line or middle-line metric. -/
def joinLines : List String → Paragraph → Metric → Metric →
    List Paragraph × Metric × Metric
  | [], _, f, m => ([], f, m)
  | line :: rest, paragraph, f, m =>
    let next_line := rest.head?
    if line = "" then
      let buffer := if paragraph.empty then Paragraph.new else paragraph
      let emitted := if paragraph.empty then [paragraph, Paragraph.new] else [Paragraph.new]
      let k := joinLines rest buffer f m
      (emitted ++ k.1, k.2)
    else
      let is_first := paragraph.empty
      let paragraph1 := paragraph.add line
      let r := Joiner.is_last f m line next_line (decide is_first)
      if r.1 then
        let k := joinLines rest Paragraph.new f m
        ({ paragraph1 with uncertain := !r.2 } :: k.1, k.2)
      else
        let f1 := if is_first then f.add (line.length : ℚ) else f
        let m1 := if is_first then m else m.add (line.length : ℚ)
        joinLines rest paragraph1 f1 m1

/-- Embedding of class `Joiner`: the borrowed line list and the two metric
accumulators `_first` and `_middle`. -/
structure Joiner where
  lines : List String
  first : Metric
  middle : Metric
deriving DecidableEq

/-- `Joiner.__init__(lines)`: fresh metrics. -/
def Joiner.new (lines : List String) : Joiner :=
  { lines := lines, first := Metric.init, middle := Metric.init }

/-- One full pass of `Joiner.__iter__`: each fetched line is stripped
(Python `str.strip`, embedded as `pyStrip`), and the pass returns the
produced paragraphs together with the updated joiner state. -/
def Joiner.paragraphs (j : Joiner) : List Paragraph × Joiner :=
  let r := joinLines (j.lines.map pyStrip) Paragraph.new j.first j.middle
  (r.1, { j with first := r.2.1, middle := r.2.2 })

/-- `Joiner.iterate(count)`: run `count` full passes, discarding the
paragraphs and keeping the refined metrics. -/
def Joiner.iterate (j : Joiner) : Nat → Joiner
  | 0 => j
  | Nat.succ n => Joiner.iterate j.paragraphs.2 n

/-! Supporting lemmas. -/

/-- The radicand of the standard deviation is non-negative. -/
lemma Metric.devSq_nonneg (m : Metric) : 0 ≤ m.devSq :=
  List.sum_nonneg fun x hx => by
    obtain ⟨v, _, rfl⟩ := List.mem_map.mp hx
    positivity

/-- The squared form used in `Joiner.is_last` is equivalent to the source
comparison `g > 2 * max (sqrt a) (sqrt b)` for non-negative radicands. -/
lemma two_mul_sqrt_max_lt_iff (a b g : ℚ) (ha : 0 ≤ a) (hb : 0 ≤ b) :
    2 * max (Real.sqrt (a : ℝ)) (Real.sqrt (b : ℝ)) < (g : ℝ) ↔
      0 < g ∧ 4 * max a b < g ^ 2 := by
  have hmono : Monotone Real.sqrt := fun x y h => Real.sqrt_le_sqrt h
  have hmax : max (Real.sqrt (a : ℝ)) (Real.sqrt (b : ℝ)) =
      Real.sqrt ((max a b : ℚ) : ℝ) := by
    rw [Rat.cast_max, hmono.map_max]
  have hs : (0 : ℝ) ≤ ((max a b : ℚ) : ℝ) := by
    rw [Rat.cast_max]
    exact le_max_of_le_left (by exact_mod_cast ha)
  have hkey : 2 * Real.sqrt ((max a b : ℚ) : ℝ) =
      Real.sqrt (((4 * max a b : ℚ)) : ℝ) := by
    rw [show ((4 * max a b : ℚ) : ℝ) = 2 ^ 2 * ((max a b : ℚ) : ℝ) by push_cast; ring,
      Real.sqrt_mul (by positivity), Real.sqrt_sq (by norm_num)]
  rw [hmax, hkey]
  constructor
  · intro h
    have hg : (0 : ℝ) < (g : ℝ) := lt_of_le_of_lt (Real.sqrt_nonneg _) h
    have hg' : 0 < g := by exact_mod_cast hg
    refine ⟨hg', ?_⟩
    have h2 := (Real.sqrt_lt' hg).mp h
    exact_mod_cast h2
  · rintro ⟨hg, hlt⟩
    have hg' : (0 : ℝ) < (g : ℝ) := by exact_mod_cast hg
    exact (Real.sqrt_lt' hg').mpr (by exact_mod_cast hlt)

/-- The metric-gap condition of `Joiner.is_last`, stated as the source
writes it with `dev = sqrt devSq`, is the squared test of the embedding. -/
lemma gap_cond_iff (f m : Metric) :
    2 * max (Real.sqrt (f.devSq : ℝ)) (Real.sqrt (m.devSq : ℝ)) <
        ((m.avg - f.avg : ℚ) : ℝ) ↔
      0 < m.avg - f.avg ∧ 4 * max f.devSq m.devSq < (m.avg - f.avg) ^ 2 :=
  two_mul_sqrt_max_lt_iff _ _ _ (Metric.devSq_nonneg f) (Metric.devSq_nonneg m)

/-- A string whose character list is empty is the empty string. -/
lemma string_eq_empty_of_data (s : String) (h : s.data = []) : s = "" := by
  cases s with
  | mk d => cases h; rfl

/-- Appending a non-empty line leaves a non-empty paragraph text. -/
lemma Paragraph.add_text_ne_empty (p : Paragraph) (line : String)
    (h : line ≠ "") : (p.add line).text ≠ "" := by
  intro hc
  have hd := congrArg String.data hc
  simp only [Paragraph.add, String.data_append] at hd
  have : line.data = [] := by
    rcases List.append_eq_nil.mp hd with ⟨-, h2⟩
    exact (List.append_eq_nil.mp h2).2
  exact h (string_eq_empty_of_data line this)

@[simp] lemma Paragraph.new_text : Paragraph.new.text = "" := rfl

@[simp] lemma Paragraph.new_uncertain : Paragraph.new.uncertain = false := rfl

@[simp] lemma Joiner.is_last_none (f m : Metric) (line : String) (b : Bool) :
    Joiner.is_last f m line none b = (true, true) := rfl

@[simp] lemma Joiner.is_last_blank (f m : Metric) (line : String) (b : Bool) :
    Joiner.is_last f m line (some "") b = (true, true) := by
  simp [Joiner.is_last]

lemma joinLines_nil (para : Paragraph) (f m : Metric) :
    joinLines [] para f m = ([], f, m) := rfl

/-- Unfolding of the blank-line branch when the buffer is empty: the empty
buffer is flushed and a fresh empty paragraph is emitted as well. -/
lemma joinLines_blank_empty (rest : List String) (para : Paragraph)
    (f m : Metric) (h : para.empty) :
    joinLines ("" :: rest) para f m =
      (para :: Paragraph.new :: (joinLines rest Paragraph.new f m).1,
        (joinLines rest Paragraph.new f m).2) := by
  simp only [joinLines, if_pos rfl, if_true, if_pos h, List.cons_append,
    List.nil_append]

/-- Unfolding of the blank-line branch when the buffer is not empty: only a
fresh empty paragraph is emitted and the buffer is kept. -/
lemma joinLines_blank_nonempty (rest : List String) (para : Paragraph)
    (f m : Metric) (h : ¬ para.empty) :
    joinLines ("" :: rest) para f m =
      (Paragraph.new :: (joinLines rest para f m).1,
        (joinLines rest para f m).2) := by
  simp only [joinLines, if_pos rfl, if_true, if_neg h, List.cons_append,
    List.nil_append]

/-- Unfolding of the non-blank branch. -/
lemma joinLines_step (line : String) (rest : List String) (para : Paragraph)
    (f m : Metric) (h : line ≠ "") :
    joinLines (line :: rest) para f m =
      if (Joiner.is_last f m line rest.head? (decide para.empty)).1 then
        ({ para.add line with
            uncertain := !(Joiner.is_last f m line rest.head? (decide para.empty)).2 } ::
          (joinLines rest Paragraph.new f m).1,
          (joinLines rest Paragraph.new f m).2)
      else
        joinLines rest (para.add line)
          (if para.empty then f.add (line.length : ℚ) else f)
          (if para.empty then m else m.add (line.length : ℚ)) := by
  simp only [joinLines, if_neg h]

/-- In a pass over non-blank lines the produced list is non-empty and its
last paragraph is certain, because the final line is classified at end of
input. -/
lemma joinLines_getLast_certain :
    ∀ (lines : List String), (∀ l ∈ lines, l ≠ "") → lines ≠ [] →
      ∀ (para : Paragraph) (f m : Metric),
        ∃ p, ((joinLines lines para f m).1).getLast? = some p ∧
          p.uncertain = false
  | [], _, h => absurd rfl h
  | [line], hnb, _ => fun para f m => by
    have hl : line ≠ "" := hnb line (by simp)
    rw [joinLines_step line [] para f m hl]
    simp only [List.head?_nil, Joiner.is_last_none, joinLines_nil]
    exact ⟨{ para.add line with uncertain := false }, by simp, rfl⟩
  | line :: r0 :: rs, hnb, _ => fun para f m => by
    have hl : line ≠ "" := hnb line (by simp)
    have hnb2 : ∀ l ∈ r0 :: rs, l ≠ "" := fun l hm => hnb l (by simp [hm])
    have IH := joinLines_getLast_certain (r0 :: rs) hnb2 (by simp)
    rw [joinLines_step line (r0 :: rs) para f m hl]
    rcases hr : Joiner.is_last f m line (r0 :: rs).head? (decide para.empty)
      with ⟨b, c⟩
    cases b
    · rw [if_neg Bool.false_ne_true]
      exact IH _ _ _
    · rw [if_pos rfl]
      obtain ⟨p, hp, hpc⟩ := IH Paragraph.new f m
      refine ⟨p, ?_, hpc⟩
      rcases hK : (joinLines (r0 :: rs) Paragraph.new f m).1 with _ | ⟨y, ys⟩
      · rw [hK] at hp
        simp at hp
      · rw [hK] at hp
        simp only [hK, List.getLast?_cons_cons]
        exact hp

/-- Paragraphs with empty text produced by a pass are never uncertain,
provided the initial buffer satisfies the same invariant. -/
lemma joinLines_empty_text_certain :
    ∀ (lines : List String) (para : Paragraph) (f m : Metric),
      (para.text = "" → para.uncertain = false) →
      ∀ p ∈ (joinLines lines para f m).1, p.text = "" → p.uncertain = false
  | [], _, _, _ => fun _ p hp _ => by
    rw [joinLines_nil] at hp
    simp at hp
  | line :: rest, para, f, m => fun hpara p hp hpt => by
    by_cases hl : line = ""
    · subst hl
      by_cases hb : para.empty
      · rw [joinLines_blank_empty rest para f m hb] at hp
        simp only [List.mem_cons] at hp
        rcases hp with rfl | rfl | hp
        · exact hpara hpt
        · rfl
        · exact joinLines_empty_text_certain rest Paragraph.new f m
            (fun _ => rfl) p hp hpt
      · rw [joinLines_blank_nonempty rest para f m hb] at hp
        simp only [List.mem_cons] at hp
        rcases hp with rfl | hp
        · rfl
        · exact joinLines_empty_text_certain rest para f m hpara p hp hpt
    · rw [joinLines_step line rest para f m hl] at hp
      rcases hr : Joiner.is_last f m line rest.head? (decide para.empty)
        with ⟨b, c⟩
      rw [hr] at hp
      cases b
      · rw [if_neg Bool.false_ne_true] at hp
        exact joinLines_empty_text_certain rest (para.add line) _ _
          (fun hc => absurd hc (Paragraph.add_text_ne_empty para line hl))
          p hp hpt
      · rw [if_pos rfl] at hp
        simp only [List.mem_cons] at hp
        rcases hp with rfl | hp
        · exact absurd hpt (Paragraph.add_text_ne_empty para line hl)
        · exact joinLines_empty_text_certain rest Paragraph.new f m
            (fun _ => rfl) p hp hpt

/-- A pass never removes values from either metric accumulator. -/
lemma joinLines_count_le :
    ∀ (lines : List String) (para : Paragraph) (f m : Metric),
      f.count ≤ (joinLines lines para f m).2.1.count ∧
        m.count ≤ (joinLines lines para f m).2.2.count
  | [], _, _, _ => ⟨le_refl _, le_refl _⟩
  | line :: rest, para, f, m => by
    by_cases hl : line = ""
    · subst hl
      by_cases hb : para.empty
      · rw [joinLines_blank_empty rest para f m hb]
        exact joinLines_count_le rest Paragraph.new f m
      · rw [joinLines_blank_nonempty rest para f m hb]
        exact joinLines_count_le rest para f m
    · rw [joinLines_step line rest para f m hl]
      rcases hr : Joiner.is_last f m line rest.head? (decide para.empty)
        with ⟨b, c⟩
      cases b
      · rw [if_neg Bool.false_ne_true]
        have IH := joinLines_count_le rest (para.add line)
          (if para.empty then f.add (line.length : ℚ) else f)
          (if para.empty then m else m.add (line.length : ℚ))
        constructor
        · refine le_trans ?_ IH.1
          by_cases hb : para.empty <;> simp [hb, Metric.add]
        · refine le_trans ?_ IH.2
          by_cases hb : para.empty <;> simp [hb, Metric.add]
      · rw [if_pos rfl]
        exact joinLines_count_le rest Paragraph.new f m

/-- A pass keeps both metric sums non-negative: the only values ever added
are string lengths. -/
lemma joinLines_sum_nonneg :
    ∀ (lines : List String) (para : Paragraph) (f m : Metric),
      0 ≤ f.sum → 0 ≤ m.sum →
      0 ≤ (joinLines lines para f m).2.1.sum ∧
        0 ≤ (joinLines lines para f m).2.2.sum
  | [], _, _, _ => fun hf hm => ⟨hf, hm⟩
  | line :: rest, para, f, m => fun hf hm => by
    by_cases hl : line = ""
    · subst hl
      by_cases hb : para.empty
      · rw [joinLines_blank_empty rest para f m hb]
        exact joinLines_sum_nonneg rest Paragraph.new f m hf hm
      · rw [joinLines_blank_nonempty rest para f m hb]
        exact joinLines_sum_nonneg rest para f m hf hm
    · rw [joinLines_step line rest para f m hl]
      rcases hr : Joiner.is_last f m line rest.head? (decide para.empty)
        with ⟨b, c⟩
      cases b
      · rw [if_neg Bool.false_ne_true]
        refine joinLines_sum_nonneg rest (para.add line) _ _ ?_ ?_
        · by_cases hb : para.empty <;>
            simp [hb, Metric.add, add_nonneg, hf, Nat.cast_nonneg]
        · by_cases hb : para.empty <;>
            simp [hb, Metric.add, add_nonneg, hm, Nat.cast_nonneg]
      · rw [if_pos rfl]
        exact joinLines_sum_nonneg rest Paragraph.new f m hf hm

/-- The average of a metric with non-negative sum is non-negative; in the
joiner the sums are sums of line lengths. -/
lemma Metric.avg_nonneg (m : Metric) (h : 0 ≤ m.sum) : 0 ≤ m.avg := by
  unfold Metric.avg
  split
  · exact div_nonneg h (Nat.cast_nonneg _)
  · exact le_refl 0

/-- Any number of refinement passes started from a fresh joiner keeps both
metric sums non-negative, so both averages stay non-negative. -/
lemma Joiner.iterate_sum_nonneg (j : Joiner) (hf : 0 ≤ j.first.sum)
    (hm : 0 ≤ j.middle.sum) :
    ∀ k, 0 ≤ (j.iterate k).first.sum ∧ 0 ≤ (j.iterate k).middle.sum
  | 0 => ⟨hf, hm⟩
  | Nat.succ n => by
    have h := joinLines_sum_nonneg (j.lines.map pyStrip) Paragraph.new
      j.first j.middle hf hm
    exact Joiner.iterate_sum_nonneg j.paragraphs.2 h.1 h.2 n

/-- Average of the concrete metric holding the single value 2. -/
lemma cexF_avg : (Metric.mk 1 2 [2]).avg = 2 := by
  norm_num [Metric.avg]

/-- Average of the concrete metric holding the single value 10. -/
lemma cexM_avg : (Metric.mk 1 10 [10]).avg = 10 := by
  norm_num [Metric.avg]

/-- Deviation radicand of the concrete metric holding the single value 2. -/
lemma cexF_devSq : (Metric.mk 1 2 [2]).devSq = 0 := by
  simp [Metric.devSq, Metric.avg]

/-- Deviation radicand of the concrete metric holding the single value 10. -/
lemma cexM_devSq : (Metric.mk 1 10 [10]).devSq = 0 := by
  simp [Metric.devSq, Metric.avg]

/-- The concrete metrics satisfy the source gap condition
`middle - first > 2 * max(dev_first, dev_middle)`. -/
lemma cex_gap :
    2 * max (Real.sqrt ((Metric.mk 1 2 [2]).devSq : ℝ))
        (Real.sqrt ((Metric.mk 1 10 [10]).devSq : ℝ)) <
      (((Metric.mk 1 10 [10]).avg - (Metric.mk 1 2 [2]).avg : ℚ) : ℝ) := by
  rw [cexF_devSq, cexM_devSq, cexF_avg, cexM_avg]
  rw [Rat.cast_zero, Real.sqrt_zero, max_self]
  norm_num

/-! Claim theorems. -/

/-- Claim C1 (code bug): the specification mandates that input
`["hello", "", "world"]` with one pass yields exactly three paragraphs
with texts `["hello", "", "world"]`, a blank line emitting exactly one
empty paragraph.  The code instead emits four: the blank-line branch
flushes the buffer as an extra empty paragraph precisely when the buffer
is empty (the guard is `if paragraph.empty` where the stated behaviour
needs its negation) and then emits the fresh empty paragraph as well. -/
theorem C1_blank_line_double_emit :
    ((Joiner.new ["hello", "", "world"]).paragraphs.1).map Paragraph.text =
      ["hello", "", "", "world"] := by
  decide

/-- Claim C2: for every joiner whose line list is non-empty and has no
lines that are blank after stripping, one pass produces a non-empty
paragraph list whose last paragraph has `uncertain = false`, because the
classification at end of input returns (true, true). -/
theorem C2_last_paragraph_certain (j : Joiner) (hne : j.lines ≠ [])
    (hnb : ∀ l ∈ j.lines, pyStrip l ≠ "") :
    ∃ p, (j.paragraphs.1).getLast? = some p ∧ p.uncertain = false := by
  have h1 : j.lines.map pyStrip ≠ [] :=
    fun hc => hne (List.map_eq_nil_iff.mp hc)
  have h2 : ∀ l ∈ j.lines.map pyStrip, l ≠ "" := by
    intro l hl
    obtain ⟨x, hx, rfl⟩ := List.mem_map.mp hl
    exact hnb x hx
  exact joinLines_getLast_certain _ h2 h1 Paragraph.new j.first j.middle

/-- Witness for C2 at the one-line input ["hello"]. -/
theorem C2_last_paragraph_certain_witness :
    (Joiner.new ["hello"]).lines ≠ [] ∧
    ∃ p, ((Joiner.new ["hello"]).paragraphs.1).getLast? = some p ∧
      p.uncertain = false :=
  ⟨by decide, C2_last_paragraph_certain _ (by decide) (by decide)⟩

/-- Claim C5: for every Metric, avg equals sum / count when count > 0 and
equals 0 when count = 0, and dev is the square root of the sum of squared
deviations of the stored values with no division by count; concretely,
after add(2), add(4), add(6) on a fresh Metric, avg = 4 and dev = sqrt 8. -/
theorem C5_metric_avg_dev :
    (∀ m : Metric,
      (0 < m.count → m.avg = m.sum / m.count) ∧
      (m.count = 0 → m.avg = 0) ∧
      Real.sqrt (m.devSq : ℝ) =
        Real.sqrt ((((m.values.map fun v => (v - m.avg) ^ 2)).sum : ℚ) : ℝ)) ∧
    (((Metric.init.add 2).add 4).add 6).avg = 4 ∧
    Real.sqrt ((((Metric.init.add 2).add 4).add 6).devSq : ℝ) = Real.sqrt 8 := by
  refine ⟨fun m => ⟨?_, ?_, rfl⟩, ?_, ?_⟩
  · intro h
    simp [Metric.avg, Nat.pos_iff_ne_zero.mp h]
  · intro h
    simp [Metric.avg, h]
  · norm_num [Metric.avg, Metric.add, Metric.init]
  · have h8 : (((Metric.init.add 2).add 4).add 6).devSq = 8 := by
      norm_num [Metric.devSq, Metric.avg, Metric.add, Metric.init]
    rw [h8]
    norm_num

/-- Witness for C5 at the metric holding 2, 4, 6. -/
theorem C5_metric_avg_dev_witness :
    0 < (((Metric.init.add 2).add 4).add 6).count ∧
    (((Metric.init.add 2).add 4).add 6).avg =
      (((Metric.init.add 2).add 4).add 6).sum /
        (((Metric.init.add 2).add 4).add 6).count :=
  ⟨by decide, (C5_metric_avg_dev.1 _).1 (by decide)⟩

/-- Claim C6: Paragraph.add sets the text to the line when the paragraph
was empty, concatenates with no separator when the current text ends with
a hyphen, and otherwise appends after a single space; "inter-" then
"national" gives "inter-national" (the hyphen is retained and no space is
inserted) and "hello" then "world" gives "hello world". -/
theorem C6_paragraph_add :
    (∀ (p : Paragraph) (line : String),
      (p.text = "" → (p.add line).text = line) ∧
      (p.text ≠ "" → pyEndsWith p.text "-" = true →
        (p.add line).text = p.text ++ line) ∧
      (p.text ≠ "" → pyEndsWith p.text "-" = false →
        (p.add line).text = p.text ++ " " ++ line)) ∧
    ((Paragraph.new.add "inter-").add "national").text = "inter-national" ∧
    ((Paragraph.new.add "hello").add "world").text = "hello world" := by
  refine ⟨fun p line => ⟨?_, ?_, ?_⟩, by decide, by decide⟩
  · intro h
    simp only [Paragraph.add, if_pos (show p.empty from h), h,
      String.empty_append]
  · intro h he
    simp only [Paragraph.add, if_neg (show ¬ p.empty from h), he, if_true,
      String.empty_append]
  · intro h he
    simp only [Paragraph.add, if_neg (show ¬ p.empty from h), he,
      Bool.false_eq_true, if_false, String.append_assoc]

/-- Counterexample for C6 as stated: the hyphen join concatenates with no
separator but keeps the hyphen, so "inter-" then "national" yields
"inter-national", not the "international" the claim asserts. -/
theorem C6_paragraph_add_counterexample :
    ((Paragraph.new.add "inter-").add "national").text = "inter-national" ∧
    ((Paragraph.new.add "inter-").add "national").text ≠ "international" := by
  constructor
  · decide
  · decide

/-- Witness for C6: appending to a non-empty paragraph not ending in a
hyphen inserts a single space. -/
theorem C6_paragraph_add_witness :
    (Paragraph.new.add "ab").text ≠ "" ∧
    pyEndsWith (Paragraph.new.add "ab").text "-" = false ∧
    ((Paragraph.new.add "ab").add "cd").text =
      (Paragraph.new.add "ab").text ++ " " ++ "cd" :=
  ⟨by decide, by decide, (C6_paragraph_add.1 _ "cd").2.2 (by decide) (by decide)⟩

/-- Claim C7: iterate 0 leaves the joiner, hence both metric accumulators
with their counts, sums and stored values, exactly unchanged; for k > 0
iterate never decreases the count of either metric. -/
theorem C7_iterate_monotone (j : Joiner) (k : Nat) (hk : 0 < k) :
    j.iterate 0 = j ∧
    j.first.count ≤ (j.iterate k).first.count ∧
    j.middle.count ≤ (j.iterate k).middle.count := by
  refine ⟨rfl, ?_⟩
  clear hk
  induction k generalizing j with
  | zero => exact ⟨le_refl _, le_refl _⟩
  | succ n ih =>
    have h := joinLines_count_le (j.lines.map pyStrip) Paragraph.new
      j.first j.middle
    have h2 := ih j.paragraphs.2
    exact ⟨le_trans h.1 h2.1, le_trans h.2 h2.2⟩

/-- Witness for C7 at a fresh joiner and k = 1. -/
theorem C7_iterate_monotone_witness :
    0 < 1 ∧
    ((Joiner.new ["a"]).iterate 0 = Joiner.new ["a"] ∧
      (Joiner.new ["a"]).first.count ≤
        ((Joiner.new ["a"]).iterate 1).first.count ∧
      (Joiner.new ["a"]).middle.count ≤
        ((Joiner.new ["a"]).iterate 1).middle.count) :=
  ⟨by decide, C7_iterate_monotone _ 1 (by decide)⟩

/-- Claim C8: the classifier always returns a definite pair of booleans
and cannot fail: the average of a metric with count 0 is 0 (no division
by zero) and the deviation of an empty sample is 0. -/
theorem C8_is_last_total :
    (∀ m : Metric, m.count = 0 → m.avg = 0) ∧
    (∀ m : Metric, m.values = [] → Real.sqrt (m.devSq : ℝ) = 0) ∧
    (∀ (f m : Metric) (line : String) (next_line : Option String) (b : Bool),
      ∃ r : Bool × Bool, Joiner.is_last f m line next_line b = r) := by
  refine ⟨fun m h => by simp [Metric.avg, h], fun m h => ?_,
    fun f m line nl b => ⟨_, rfl⟩⟩
  have h0 : m.devSq = 0 := by simp [Metric.devSq, h]
  rw [h0]
  simp

/-- Witness for C8 at the fresh metric. -/
theorem C8_is_last_total_witness :
    Metric.init.avg = 0 ∧
    Real.sqrt (Metric.init.devSq : ℝ) = 0 ∧
    ∃ r : Bool × Bool,
      Joiner.is_last Metric.init Metric.init "a" (some "b") true = r :=
  ⟨C8_is_last_total.1 _ rfl, C8_is_last_total.2.1 _ rfl,
    C8_is_last_total.2.2 _ _ _ _ _⟩

/-- Claim C9: a blank next line is classified exactly like end of input,
returning (true, true); hence a non-blank line immediately followed by a
blank line is emitted as a certain paragraph boundary regardless of the
metric state. -/
theorem C9_blank_next_line (f m : Metric) (line : String) (b : Bool)
    (para : Paragraph) (rest : List String) (h : line ≠ "") :
    Joiner.is_last f m line (some "") b = (true, true) ∧
    (joinLines (line :: "" :: rest) para f m).1 =
      { text := (para.add line).text, uncertain := false } ::
        (joinLines ("" :: rest) Paragraph.new f m).1 := by
  refine ⟨Joiner.is_last_blank f m line b, ?_⟩
  rw [joinLines_step line ("" :: rest) para f m h]
  simp

/-- Witness for C9 at the input ["hello", ""]. -/
theorem C9_blank_next_line_witness :
    ("hello" : String) ≠ "" ∧
    Joiner.is_last Metric.init Metric.init "hello" (some "") true =
      (true, true) ∧
    (joinLines ["hello", ""] Paragraph.new Metric.init Metric.init).1 =
      { text := (Paragraph.new.add "hello").text, uncertain := false } ::
        (joinLines [""] Paragraph.new Metric.init Metric.init).1 :=
  ⟨by decide,
    (C9_blank_next_line Metric.init Metric.init "hello" true Paragraph.new []
      (by decide)).1,
    (C9_blank_next_line Metric.init Metric.init "hello" true Paragraph.new []
      (by decide)).2⟩

/-- Claim C10: every paragraph yielded by a pass whose text is the empty
string has `uncertain = false`; the flag is set only on paragraphs to
which a non-blank line was appended. -/
theorem C10_empty_paragraph_certain (j : Joiner) (p : Paragraph)
    (hp : p ∈ j.paragraphs.1) (ht : p.text = "") : p.uncertain = false :=
  joinLines_empty_text_certain (j.lines.map pyStrip) Paragraph.new j.first
    j.middle (fun _ => rfl) p hp ht

/-- Witness for C10 at the blank-line paragraph of ["hello", "", "world"]. -/
theorem C10_empty_paragraph_certain_witness :
    ({ text := "", uncertain := false } : Paragraph) ∈
      (Joiner.new ["hello", "", "world"]).paragraphs.1 ∧
    ({ text := "", uncertain := false } : Paragraph).uncertain = false :=
  ⟨by decide,
    C10_empty_paragraph_certain (Joiner.new ["hello", "", "world"])
      { text := "", uncertain := false } (by decide) (by decide)⟩

/-- Claim C3 (amended: the next line must be non-empty, since a blank next
line takes the end-of-input shortcut): with a non-empty next line, when the
metric gap condition holds and the next line is no longer than the middle
threshold, a line ending in an END_MARK is classified last with certainty
`len(line) < t` where t is the last threshold for a first line and the
middle threshold otherwise; when the gap condition fails, a line ending in
any mark of either list is classified `(true, len(line) < last_threshold)`
and otherwise `(false, true)`. -/
theorem C3_punctuation_cases (f m : Metric) (line next : String) (b : Bool)
    (hnext : next ≠ "") :
    (2 * max (Real.sqrt (f.devSq : ℝ)) (Real.sqrt (m.devSq : ℝ)) <
        ((m.avg - f.avg : ℚ) : ℝ) →
      (next.length : ℚ) ≤ (m.avg + f.avg) / 2 →
      END_MARKS.any (fun mark => pyEndsWith line mark) = true →
      Joiner.is_last f m line (some next) b =
        (true, decide ((line.length : ℚ) <
          if b then f.avg - (m.avg - f.avg) else (m.avg + f.avg) / 2))) ∧
    (((m.avg - f.avg : ℚ) : ℝ) ≤
        2 * max (Real.sqrt (f.devSq : ℝ)) (Real.sqrt (m.devSq : ℝ)) →
      ((END_MARKS ++ POSSIBLE_END_MARKS).any
          (fun mark => pyEndsWith line mark) = true →
        Joiner.is_last f m line (some next) b =
          (true, decide ((line.length : ℚ) < f.avg - (m.avg - f.avg)))) ∧
      ((END_MARKS ++ POSSIBLE_END_MARKS).any
          (fun mark => pyEndsWith line mark) = false →
        Joiner.is_last f m line (some next) b = (false, true))) := by
  constructor
  · intro hgap hlen hmark
    have hsq := (gap_cond_iff f m).mp hgap
    simp only [Joiner.is_last]
    rw [if_neg hnext, if_pos hsq, if_neg (not_lt.mpr hlen), if_pos hmark]
  · intro hgap
    have hnsq : ¬(0 < m.avg - f.avg ∧
        4 * max f.devSq m.devSq < (m.avg - f.avg) ^ 2) :=
      fun hc => absurd ((gap_cond_iff f m).mpr hc) (not_lt.mpr hgap)
    constructor
    · intro hmark
      simp only [Joiner.is_last]
      rw [if_neg hnext, if_neg hnsq, if_pos hmark]
    · intro hmark
      simp only [Joiner.is_last]
      rw [if_neg hnext, if_neg hnsq, if_neg (by simp [hmark])]

/-- Counterexample for C3 as stated (with any present next line): when the
next line is the empty string the classifier returns (true, true) through
the end-shortcut, even though the gap condition holds, the next line is
short enough, and the line ends in an END_MARK, so the claimed certainty
value `len(line) < middle_threshold` (false here, 7 < 6) is not produced. -/
theorem C3_punctuation_cases_counterexample :
    2 * max (Real.sqrt ((Metric.mk 1 2 [2]).devSq : ℝ))
        (Real.sqrt ((Metric.mk 1 10 [10]).devSq : ℝ)) <
      (((Metric.mk 1 10 [10]).avg - (Metric.mk 1 2 [2]).avg : ℚ) : ℝ) ∧
    ((("" : String).length : ℚ)) ≤
      ((Metric.mk 1 10 [10]).avg + (Metric.mk 1 2 [2]).avg) / 2 ∧
    END_MARKS.any (fun mark => pyEndsWith "abcdef." mark) = true ∧
    Joiner.is_last (Metric.mk 1 2 [2]) (Metric.mk 1 10 [10]) "abcdef."
        (some "") false ≠
      (true, decide ((("abcdef." : String).length : ℚ) <
        if false then (Metric.mk 1 2 [2]).avg -
            ((Metric.mk 1 10 [10]).avg - (Metric.mk 1 2 [2]).avg)
          else ((Metric.mk 1 10 [10]).avg + (Metric.mk 1 2 [2]).avg) / 2)) := by
  refine ⟨cex_gap, ?_, by decide, ?_⟩
  · rw [cexF_avg, cexM_avg]
    norm_num
  · rw [Joiner.is_last_blank]
    have hdec : decide ((("abcdef." : String).length : ℚ) <
        if false then (Metric.mk 1 2 [2]).avg -
            ((Metric.mk 1 10 [10]).avg - (Metric.mk 1 2 [2]).avg)
          else ((Metric.mk 1 10 [10]).avg + (Metric.mk 1 2 [2]).avg) / 2) =
        false := by
      apply decide_eq_false
      rw [cexF_avg, cexM_avg]
      norm_num [show ("abcdef." : String).length = 7 from rfl]
    rw [hdec]
    decide

/-- Witness for the amended C3 at concrete metrics with averages 2 and 10,
line "xy." and next line "abc". -/
theorem C3_punctuation_cases_witness :
    ("abc" : String) ≠ "" ∧
    2 * max (Real.sqrt ((Metric.mk 1 2 [2]).devSq : ℝ))
        (Real.sqrt ((Metric.mk 1 10 [10]).devSq : ℝ)) <
      (((Metric.mk 1 10 [10]).avg - (Metric.mk 1 2 [2]).avg : ℚ) : ℝ) ∧
    (("abc" : String).length : ℚ) ≤
      ((Metric.mk 1 10 [10]).avg + (Metric.mk 1 2 [2]).avg) / 2 ∧
    END_MARKS.any (fun mark => pyEndsWith "xy." mark) = true ∧
    Joiner.is_last (Metric.mk 1 2 [2]) (Metric.mk 1 10 [10]) "xy."
        (some "abc") false =
      (true, decide ((("xy." : String).length : ℚ) <
        if false then (Metric.mk 1 2 [2]).avg -
            ((Metric.mk 1 10 [10]).avg - (Metric.mk 1 2 [2]).avg)
          else ((Metric.mk 1 10 [10]).avg + (Metric.mk 1 2 [2]).avg) / 2)) := by
  have hlen : (("abc" : String).length : ℚ) ≤
      ((Metric.mk 1 10 [10]).avg + (Metric.mk 1 2 [2]).avg) / 2 := by
    rw [cexF_avg, cexM_avg]
    norm_num [show ("abc" : String).length = 3 from rfl]
  exact ⟨by decide, cex_gap, hlen, by decide,
    (C3_punctuation_cases (Metric.mk 1 2 [2]) (Metric.mk 1 10 [10]) "xy."
      "abc" false (by decide)).1 cex_gap hlen (by decide)⟩

/-- Claim C4: with a next line present, when the metric gap condition
holds and the next line is longer than the middle threshold, the
classifier returns (false, true) without consulting any punctuation list.
The hypothesis `0 ≤ f.avg` holds at every call the program makes, since
the metrics only ever accumulate line lengths (`joinLines_sum_nonneg`,
`Joiner.iterate_sum_nonneg`, `Metric.avg_nonneg`). -/
theorem C4_long_next_line (f m : Metric) (line next : String) (b : Bool)
    (havg : 0 ≤ f.avg)
    (hgap : 2 * max (Real.sqrt (f.devSq : ℝ)) (Real.sqrt (m.devSq : ℝ)) <
      ((m.avg - f.avg : ℚ) : ℝ))
    (hlen : (m.avg + f.avg) / 2 < (next.length : ℚ)) :
    Joiner.is_last f m line (some next) b = (false, true) := by
  have hsq := (gap_cond_iff f m).mp hgap
  have hnext : next ≠ "" := by
    intro hc
    subst hc
    have h1 : 0 < m.avg - f.avg := hsq.1
    have hlen0 : (m.avg + f.avg) / 2 < 0 := by simpa using hlen
    linarith
  simp only [Joiner.is_last]
  rw [if_neg hnext, if_pos hsq, if_pos hlen]

/-- Witness for C4 at concrete metrics with averages 2 and 10 and the
seven-character next line "abcdefg". -/
theorem C4_long_next_line_witness :
    0 ≤ (Metric.mk 1 2 [2]).avg ∧
    2 * max (Real.sqrt ((Metric.mk 1 2 [2]).devSq : ℝ))
        (Real.sqrt ((Metric.mk 1 10 [10]).devSq : ℝ)) <
      (((Metric.mk 1 10 [10]).avg - (Metric.mk 1 2 [2]).avg : ℚ) : ℝ) ∧
    ((Metric.mk 1 10 [10]).avg + (Metric.mk 1 2 [2]).avg) / 2 <
      (("abcdefg" : String).length : ℚ) ∧
    Joiner.is_last (Metric.mk 1 2 [2]) (Metric.mk 1 10 [10]) "xyz."
      (some "abcdefg") false = (false, true) := by
  have havg : 0 ≤ (Metric.mk 1 2 [2]).avg := by
    rw [cexF_avg]
    norm_num
  have hlen : ((Metric.mk 1 10 [10]).avg + (Metric.mk 1 2 [2]).avg) / 2 <
      (("abcdefg" : String).length : ℚ) := by
    rw [cexF_avg, cexM_avg]
    norm_num [show ("abcdefg" : String).length = 7 from rfl]
  exact ⟨havg, cex_gap, hlen,
    C4_long_next_line (Metric.mk 1 2 [2]) (Metric.mk 1 10 [10]) "xyz."
      "abcdefg" false havg cex_gap hlen⟩
